import Mathlib

/-!
Verification of the resource-quota-enforcer controller.

Shallow embedding of the Go sources:
  pkg/handlers/handlers.go  (Policy, EnforcementResult, computeUsage,
                             selectPodToDelete, EnforceUntilOK, Reason, ParsePolicy)
  pkg/webhook/server.go     (evaluatePodAgainstPolicy, the fail-open branch of
                             HandleValidatePods)

Kubernetes resource quantities are modelled as arbitrary-precision integers in
milli-units (resource.Quantity arithmetic is exact; Add is +, Cmp is integer
comparison).  Quantity.String() is modelled as the decimal rendering of the
milli value; the enforcement code only inspects message prefixes such as
"pods"/"cpu"/"memory", never the numeric rendering, so this preserves all
behaviour the claims depend on.  The cluster is modelled as the list of pods
in the namespace; Pods.List returns that list (or an error, where a claim
concerns the error path) and Pods.Delete removes the named pod.
-/

namespace RQE

/-- Resource quantity in milli-units (CPU: millicores; memory: milli-bytes). -/
abbrev Quantity := Int

/-- Pod phase, from corev1.PodPhase. Only Succeeded/Failed matter to this code. -/
inductive PodPhase where
  | pending
  | running
  | succeeded
  | failed
  | unknown
deriving DecidableEq, Repr

/-- One container: its optional cpu and memory requests
(c.Resources.Requests[cpu], c.Resources.Requests[memory]). -/
structure Container where
  cpuReq : Option Quantity
  memReq : Option Quantity
deriving DecidableEq, Repr

/-- A pod: the fields of corev1.Pod that the enforcer reads. -/
structure Pod where
  name : String
  phase : PodPhase
  creationTimestamp : Int
  containers : List Container
deriving DecidableEq, Repr

/-- handlers.Policy: parsed enforcement limits. -/
structure Policy where
  maxPods : Int
  maxCPU : Quantity
  maxMemory : Quantity
deriving DecidableEq, Repr

/-- handlers.EnforcementResult. CurrentCPU/CurrentMemory are the String()
renderings in Go; here the quantity rendering (decimal milli value). -/
structure EnforcementResult where
  currentPods : Int
  currentCPU : String
  currentMemory : String
  violation : Bool
  message : String
deriving DecidableEq, Repr

/-- Quantity.String(), modelled as decimal rendering of the milli value. -/
def quantityToString (q : Quantity) : String := toString q

/-- Sum of a pod's container CPU requests (absent request contributes nothing). -/
def podCPU (p : Pod) : Quantity :=
  p.containers.foldl (fun acc c => acc + c.cpuReq.getD 0) 0

/-- Sum of a pod's container memory requests (absent request contributes nothing). -/
def podMem (p : Pod) : Quantity :=
  p.containers.foldl (fun acc c => acc + c.memReq.getD 0) 0

/-- The pods that count toward usage: phase is neither Succeeded nor Failed
(the loop in computeUsage / evaluatePodAgainstPolicy skips completed pods). -/
def activePods (pods : List Pod) : List Pod :=
  pods.filter fun p => p.phase != PodPhase.succeeded && p.phase != PodPhase.failed

/-- Number of counted (non-terminal) pods. -/
def activeCount (pods : List Pod) : Int :=
  (activePods pods).length

/-- Total CPU requests of counted pods. -/
def usedCPU (pods : List Pod) : Quantity :=
  (activePods pods).foldl (fun acc p => acc + podCPU p) 0

/-- Total memory requests of counted pods. -/
def usedMem (pods : List Pod) : Quantity :=
  (activePods pods).foldl (fun acc p => acc + podMem p) 0

/-- handlers.computeUsage: usage summary and violation state for a namespace.
The three checks run in sequence and each overwrites msg, exactly as in Go. -/
def computeUsage (pods : List Pod) (policy : Policy) : EnforcementResult :=
  let count := activeCount pods
  let totalCPU := usedCPU pods
  let totalMem := usedMem pods
  let step0 : Bool × String := (false, "")
  let step1 : Bool × String :=
    if count > policy.maxPods then
      (true, "pods:" ++ (toString count ++ (">max:" ++ toString policy.maxPods)))
    else step0
  let step2 : Bool × String :=
    if totalCPU > policy.maxCPU then
      (true, "cpu:" ++ (quantityToString totalCPU ++ (">max:" ++ quantityToString policy.maxCPU)))
    else step1
  let step3 : Bool × String :=
    if totalMem > policy.maxMemory then
      (true, "memory:" ++ (quantityToString totalMem ++ (">max:" ++ quantityToString policy.maxMemory)))
    else step2
  { currentPods := count
    currentCPU := quantityToString totalCPU
    currentMemory := quantityToString totalMem
    violation := step3.1
    message := step3.2 }

/-- EnforcementResult.Reason(): short reason parsed from the message prefix. -/
def reasonOfMessage (m : String) : String :=
  let cs := m.toList
  if cs = [] then ""
  else if cs.take 4 = "pods".toList then "pods"
  else if cs.take 3 = "cpu".toList then "cpu"
  else if cs.take 6 = "memory".toList then "memory"
  else ""

/-- EnforcementResult.Reason() as a method. -/
def EnforcementResult.reason (r : EnforcementResult) : String :=
  reasonOfMessage r.message

/-- handlers.selectPodToDelete: oldest pod when the reason is a pod-count
violation, newest pod otherwise; none only for an empty list.  Go sorts the
slice with a strict comparator and takes index 0; for the oldest case that is
the minimum by creation timestamp (first such pod when tied), for the newest
case the maximum (first such pod when tied), modelled by a fold. -/
def selectPodToDelete (pods : List Pod) (reason : String) : Option Pod :=
  match pods with
  | [] => none
  | p :: rest =>
    if reason = "pods" then
      some (rest.foldl
        (fun best q => if q.creationTimestamp < best.creationTimestamp then q else best) p)
    else
      some (rest.foldl
        (fun best q => if q.creationTimestamp > best.creationTimestamp then q else best) p)

/-- Pods.Delete(name): the namespace state without the named pod. -/
def deletePodByName (pods : List Pod) (name : String) : List Pod :=
  pods.filter fun p => p.name != name

/-- Outcome of one EnforceUntilOK invocation: the returned EnforcementResult,
the returned error, the names of the pods deleted (in order), and the final
namespace state. -/
structure EnforceOutcome where
  result : EnforcementResult
  err : Option String
  victims : List String
  finalPods : List Pod
deriving DecidableEq, Repr

/-- The body of the EnforceUntilOK for-loop, recursing on the remaining
iteration budget; when the budget is exhausted the Go code falls out of the
loop, recomputes usage and returns it with lastErr (none here: in this model
list and delete succeed, so lastErr is never set). -/
def enforceAux (policy : Policy) : Nat → List Pod → List String → EnforceOutcome
  | 0, pods, victims =>
    { result := computeUsage pods policy
      err := none
      victims := victims
      finalPods := pods }
  | fuel + 1, pods, victims =>
    let res := computeUsage pods policy
    if res.violation = false then
      { result := res, err := none, victims := victims, finalPods := pods }
    else
      match selectPodToDelete pods res.reason with
      | none =>
        { result := { res with message := "violation but no suitable pod to delete" }
          err := none
          victims := victims
          finalPods := pods }
      | some target =>
        enforceAux policy fuel (deletePodByName pods target.name) (victims ++ [target.name])

/-- handlers.EnforceUntilOK: delete pods until usage complies with the
policy or the safety limit of 10 iterations is reached. -/
def EnforceUntilOK (pods : List Pod) (policy : Policy) : EnforceOutcome :=
  enforceAux policy 10 pods []

/-- Multiplier (in milli-units) attached to a quantity suffix.  Covers the
suffixes this repository uses; the empty suffix is the base unit. -/
def suffixValue (s : String) : Option Int :=
  if s = "" then some 1000
  else if s = "m" then some 1
  else if s = "k" then some 1000000
  else if s = "M" then some 1000000000
  else if s = "G" then some 1000000000000
  else if s = "Ki" then some 1024000
  else if s = "Mi" then some 1048576000
  else if s = "Gi" then some 1073741824000
  else none

/-- resource.ParseQuantity, for the integer quantity strings this repository
uses ("2", "500m", "2Gi", ...): a non-empty digit run followed by a
recognised suffix; anything else fails to parse. -/
def parseQuantity (s : String) : Option Quantity :=
  let chars := s.toList
  let digits := chars.takeWhile Char.isDigit
  let rest := chars.dropWhile Char.isDigit
  if digits = [] then none
  else
    let n : Int := digits.foldl (fun acc c => acc * 10 + (Int.ofNat (c.toNat - 48))) 0
    match suffixValue (String.mk rest) with
    | some mult => some (n * mult)
    | none => none

/-- resource.MustParse: used by the code only on strings that parse; the Go
panic on a malformed literal is out of scope, so the model totalises with 0. -/
def mustParse (s : String) : Quantity :=
  (parseQuantity s).getD 0

/-- A Go interface value as found in the untyped policy spec map:
an int64, a string, or a value of any other dynamic type. -/
inductive GoVal where
  | vint (i : Int)
  | vstr (s : String)
  | vother
deriving DecidableEq, Repr

/-- map[string]interface lookup. -/
def lookupSpec (spec : List (String × GoVal)) (k : String) : Option GoVal :=
  match spec with
  | [] => none
  | (k2, v) :: rest => if k2 = k then some v else lookupSpec rest k

/-- handlers.ParsePolicy: per-field defaults (maxPods 10, maxCPU "2",
maxMemory "2Gi"), each overridden only when the field is present with the
right dynamic type and, for quantities, parses. -/
def ParsePolicy (spec : List (String × GoVal)) : Policy :=
  let maxPods : Int :=
    match lookupSpec spec "maxPods" with
    | some (GoVal.vint v) => v
    | _ => 10
  let maxCPU : Quantity :=
    match lookupSpec spec "maxCPU" with
    | some (GoVal.vstr s) =>
      match parseQuantity s with
      | some q => q
      | none => mustParse "2"
    | _ => mustParse "2"
  let maxMem : Quantity :=
    match lookupSpec spec "maxMemory" with
    | some (GoVal.vstr s) =>
      match parseQuantity s with
      | some q => q
      | none => mustParse "2Gi"
    | _ => mustParse "2Gi"
  { maxPods := maxPods, maxCPU := maxCPU, maxMemory := maxMem }

/-- v1alpha1.ResourceQuotaPolicySpec: the typed policy object read by the
admission webhook (MaxPods int, MaxCPU string, MaxMemory string). -/
structure QuotaPolicySpec where
  maxPods : Int
  maxCPU : String
  maxMemory : String
deriving DecidableEq, Repr

/-- The (allowed, reason, error) triple returned by evaluatePodAgainstPolicy. -/
structure AdmitDecision where
  allowed : Bool
  reason : String
  err : Option String
deriving DecidableEq, Repr

/-- webhook.evaluatePodAgainstPolicy: project usage including the candidate
pod and check, in order, pod count (when maxPods greater than 0), cpu (when
maxCPU greater than 0), memory (when maxMemory greater than 0).  listResult is
what the clientset pod List call produced; on a list error the function
returns allowed with the error (fail-open). -/
def evaluatePodAgainstPolicy (newPod : Pod) (listResult : Except String (List Pod))
    (spec : QuotaPolicySpec) : AdmitDecision :=
  let maxPods := spec.maxPods
  let maxCPU := mustParse spec.maxCPU
  let maxMem := mustParse spec.maxMemory
  match listResult with
  | Except.error e => { allowed := true, reason := "", err := some e }
  | Except.ok pods =>
    let totalPods := activeCount pods + 1
    let totalCPU := usedCPU pods + podCPU newPod
    let totalMem := usedMem pods + podMem newPod
    if maxPods > 0 ∧ totalPods > maxPods then
      { allowed := false
        reason := "maxPods exceeded: " ++ (toString totalPods ++ (" > " ++ toString maxPods))
        err := none }
    else if maxCPU > 0 ∧ totalCPU > maxCPU then
      { allowed := false
        reason := "cpu exceeded: " ++ (quantityToString totalCPU ++ (" > " ++ quantityToString maxCPU))
        err := none }
    else if maxMem > 0 ∧ totalMem > maxMem then
      { allowed := false
        reason := "memory exceeded: " ++ (quantityToString totalMem ++ (" > " ++ quantityToString maxMem))
        err := none }
    else { allowed := true, reason := "", err := none }

/-- The decision HandleValidatePods turns into the AdmissionResponse: an
error from evaluatePodAgainstPolicy means allow (fail-open), otherwise the
evaluated allowed flag. -/
def admissionAllowed (d : AdmitDecision) : Bool :=
  if d.err.isSome then true else d.allowed

/-! Helper lemmas about the message strings and their parsed reasons. -/

lemma reasonOfMessage_podsMsg (t : String) : reasonOfMessage ("pods:" ++ t) = "pods" := rfl

lemma reasonOfMessage_cpuMsg (t : String) : reasonOfMessage ("cpu:" ++ t) = "cpu" := rfl

lemma reasonOfMessage_memoryMsg (t : String) : reasonOfMessage ("memory:" ++ t) = "memory" := rfl

lemma reasonOfMessage_empty : reasonOfMessage "" = "" := rfl

lemma evalMsg_pods_take (t : String) :
    ("maxPods exceeded: " ++ t).toList.take 7 = "maxPods".toList := rfl

lemma evalMsg_cpu_take (t : String) :
    ("cpu exceeded: " ++ t).toList.take 3 = "cpu".toList := rfl

lemma evalMsg_mem_take (t : String) :
    ("memory exceeded: " ++ t).toList.take 6 = "memory".toList := rfl

lemma evalMsg_cpu_ne_pods (t : String) :
    ("cpu exceeded: " ++ t).toList.take 7 ≠ "maxPods".toList := by
  have h : ("cpu exceeded: " ++ t).toList.take 7 = "cpu exc".toList := rfl
  rw [h]; decide

lemma evalMsg_mem_ne_pods (t : String) :
    ("memory exceeded: " ++ t).toList.take 7 ≠ "maxPods".toList := by
  have h : ("memory exceeded: " ++ t).toList.take 7 = "memory ".toList := rfl
  rw [h]; decide

/-! Helper lemmas about the timestamp folds inside selectPodToDelete. -/

lemma foldl_old_mem (p : Pod) (l : List Pod) :
    l.foldl (fun best q => if q.creationTimestamp < best.creationTimestamp then q else best) p
      ∈ p :: l := by
  induction l generalizing p with
  | nil => simp
  | cons q l ih =>
    have h := ih (if q.creationTimestamp < p.creationTimestamp then q else p)
    simp only [List.foldl_cons]
    rcases List.mem_cons.mp h with h1 | h1
    · rw [h1]
      split
      · exact List.mem_cons_of_mem _ (List.mem_cons_self _ _)
      · exact List.mem_cons_self _ _
    · exact List.mem_cons_of_mem _ (List.mem_cons_of_mem _ h1)

lemma foldl_old_le (p : Pod) (l : List Pod) :
    ∀ r ∈ p :: l,
      (l.foldl (fun best q => if q.creationTimestamp < best.creationTimestamp then q else best)
        p).creationTimestamp ≤ r.creationTimestamp := by
  induction l generalizing p with
  | nil =>
    intro r hr
    rw [List.mem_singleton.mp hr]
    exact le_refl _
  | cons q l ih =>
    intro r hr
    simp only [List.foldl_cons]
    have hp : (if q.creationTimestamp < p.creationTimestamp then q
        else p).creationTimestamp ≤ p.creationTimestamp := by
      split
      · exact le_of_lt (by assumption)
      · exact le_refl _
    have hq : (if q.creationTimestamp < p.creationTimestamp then q
        else p).creationTimestamp ≤ q.creationTimestamp := by
      split
      · exact le_refl _
      · exact le_of_not_lt (by assumption)
    have hhead := ih (if q.creationTimestamp < p.creationTimestamp then q else p) _
      (List.mem_cons_self _ _)
    rcases List.mem_cons.mp hr with rfl | h1
    · exact le_trans hhead hp
    · rcases List.mem_cons.mp h1 with rfl | h2
      · exact le_trans hhead hq
      · exact ih _ _ (List.mem_cons_of_mem _ h2)

lemma foldl_new_mem (p : Pod) (l : List Pod) :
    l.foldl (fun best q => if q.creationTimestamp > best.creationTimestamp then q else best) p
      ∈ p :: l := by
  induction l generalizing p with
  | nil => simp
  | cons q l ih =>
    have h := ih (if q.creationTimestamp > p.creationTimestamp then q else p)
    simp only [List.foldl_cons]
    rcases List.mem_cons.mp h with h1 | h1
    · rw [h1]
      split
      · exact List.mem_cons_of_mem _ (List.mem_cons_self _ _)
      · exact List.mem_cons_self _ _
    · exact List.mem_cons_of_mem _ (List.mem_cons_of_mem _ h1)

lemma foldl_new_ge (p : Pod) (l : List Pod) :
    ∀ r ∈ p :: l,
      r.creationTimestamp ≤
        (l.foldl (fun best q => if q.creationTimestamp > best.creationTimestamp then q else best)
          p).creationTimestamp := by
  induction l generalizing p with
  | nil =>
    intro r hr
    rw [List.mem_singleton.mp hr]
    exact le_refl _
  | cons q l ih =>
    intro r hr
    simp only [List.foldl_cons]
    have hp : p.creationTimestamp ≤ (if q.creationTimestamp > p.creationTimestamp then q
        else p).creationTimestamp := by
      split
      · exact le_of_lt (by assumption)
      · exact le_refl _
    have hq : q.creationTimestamp ≤ (if q.creationTimestamp > p.creationTimestamp then q
        else p).creationTimestamp := by
      split
      · exact le_refl _
      · exact le_of_not_lt (by assumption)
    have hhead := ih (if q.creationTimestamp > p.creationTimestamp then q else p) _
      (List.mem_cons_self _ _)
    rcases List.mem_cons.mp hr with rfl | h1
    · exact le_trans hp hhead
    · rcases List.mem_cons.mp h1 with rfl | h2
      · exact le_trans hq hhead
      · exact ih _ _ (List.mem_cons_of_mem _ h2)

/-! Helper lemmas about the enforcement loop. -/

lemma enforceAux_err_none (policy : Policy) (fuel : Nat) :
    ∀ pods victims, (enforceAux policy fuel pods victims).err = none := by
  induction fuel with
  | zero => intro pods victims; rfl
  | succ n ih =>
    intro pods victims
    simp only [enforceAux]
    split
    · rfl
    · split
      · rfl
      · exact ih _ _

lemma enforceAux_victims_le (policy : Policy) (fuel : Nat) :
    ∀ pods victims,
      (enforceAux policy fuel pods victims).victims.length ≤ victims.length + fuel := by
  induction fuel with
  | zero => intro pods victims; simp [enforceAux]
  | succ n ih =>
    intro pods victims
    by_cases hv : (computeUsage pods policy).violation = false
    · simp only [enforceAux, if_pos hv]
      omega
    · cases hsel : selectPodToDelete pods (computeUsage pods policy).reason with
      | none =>
        simp only [enforceAux, if_neg hv, hsel]
        omega
      | some target =>
        simp only [enforceAux, if_neg hv, hsel]
        have h1 := ih (deletePodByName pods target.name) (victims ++ [target.name])
        have h2 : (victims ++ [target.name]).length = victims.length + 1 := by simp
        omega

lemma enforceAux_cap (policy : Policy) (fuel : Nat) :
    ∀ pods victims,
      (enforceAux policy fuel pods victims).victims.length = victims.length + fuel →
      (enforceAux policy fuel pods victims).result =
        computeUsage (enforceAux policy fuel pods victims).finalPods policy := by
  induction fuel with
  | zero => intro pods victims _; rfl
  | succ n ih =>
    intro pods victims h
    by_cases hv : (computeUsage pods policy).violation = false
    · simp only [enforceAux, if_pos hv] at h
      omega
    · cases hsel : selectPodToDelete pods (computeUsage pods policy).reason with
      | none =>
        simp only [enforceAux, if_neg hv, hsel] at h
        omega
      | some target =>
        simp only [enforceAux, if_neg hv, hsel] at h ⊢
        apply ih
        rw [h]
        simp [List.length_append]
        omega

/-! Concrete namespace populations and policies used as test inputs. -/

/-- A pod with one container holding the given requests. -/
def mkPod (name : String) (phase : PodPhase) (ts : Int) (cpu mem : Option Quantity) : Pod :=
  { name := name, phase := phase, creationTimestamp := ts,
    containers := [{ cpuReq := cpu, memReq := mem }] }

/-- Two running pods of 400 millicores each: both the pod-count limit (1) and
the cpu limit (500m) of policy below are exceeded at once. -/
def c1Pods : List Pod :=
  [mkPod "a" PodPhase.running 1 (some 400) none, mkPod "b" PodPhase.running 2 (some 400) none]

/-- maxPods 1, maxCPU 500m, maxMemory large. -/
def c1Policy : Policy := { maxPods := 1, maxCPU := 500, maxMemory := 1000000000 }

/-- C1: with both the pod-count and the cpu limit exceeded simultaneously,
computeUsage does NOT report the first violation in check order (pods): each
check overwrites the message, so the reported reason is cpu, not pods. -/
theorem computeUsage_reason_not_first_cex :
    activeCount c1Pods > c1Policy.maxPods ∧
    usedCPU c1Pods > c1Policy.maxCPU ∧
    (computeUsage c1Pods c1Policy).reason = "cpu" ∧
    ¬ (computeUsage c1Pods c1Policy).reason = "pods" := by decide

/-- C1 (amended): the reason recorded by computeUsage is the LAST detected
violation in the fixed check order (pods, then cpu, then memory): memory
takes precedence over cpu, and cpu over pods, because each check overwrites
the message of the previous one. -/
theorem computeUsage_reason_last_violation (pods : List Pod) (policy : Policy) :
    (computeUsage pods policy).reason =
      (if usedMem pods > policy.maxMemory then "memory"
       else if usedCPU pods > policy.maxCPU then "cpu"
       else if activeCount pods > policy.maxPods then "pods"
       else "") := by
  by_cases hm : usedMem pods > policy.maxMemory <;>
    by_cases hc : usedCPU pods > policy.maxCPU <;>
      by_cases hp : activeCount pods > policy.maxPods <;>
        simp [computeUsage, EnforcementResult.reason, hm, hc, hp,
          reasonOfMessage_podsMsg, reasonOfMessage_cpuMsg, reasonOfMessage_memoryMsg,
          reasonOfMessage_empty]

/-- A single running pod with no requests. -/
def c2Pod : Pod := mkPod "a" PodPhase.running 1 none none

/-- maxPods 0 with generous resource limits. -/
def c2Policy : Policy := { maxPods := 0, maxCPU := 1000000, maxMemory := 1000000000 }

/-- The webhook-side policy with maxPods 0. -/
def c2wSpec : QuotaPolicySpec := { maxPods := 0, maxCPU := "500m", maxMemory := "2Gi" }

/-- Candidate pod requesting 800 millicores. -/
def c2wPod : Pod := mkPod "w" PodPhase.running 1 (some 800) none

/-- C2: with maxPods 0 and one running pod, computeUsage DOES report a
pod-count violation (count 1 is greater than max 0): the reconciliation path
has no zero-means-unlimited guard, contradicting the claim. -/
theorem computeUsage_maxPods_zero_cex :
    c2Policy.maxPods = 0 ∧
    (computeUsage [c2Pod] c2Policy).violation = true ∧
    (computeUsage [c2Pod] c2Policy).reason = "pods" := by decide

/-- C2 (amended): maxPods 0 is treated as unlimited only on the admission path:
evaluatePodAgainstPolicy never produces a pod-count rejection when maxPods is
0, but computeUsage reports a pod-count violation whenever the non-terminal
pod count exceeds 0 (here isolated by keeping cpu and memory within limits). -/
theorem maxPods_zero_unlimited_only_in_admission :
    (∀ (newPod : Pod) (pods : List Pod) (spec : QuotaPolicySpec),
      spec.maxPods = 0 →
      (evaluatePodAgainstPolicy newPod (Except.ok pods) spec).allowed = false →
      (evaluatePodAgainstPolicy newPod (Except.ok pods) spec).reason.toList.take 7 ≠
        "maxPods".toList) ∧
    (∀ (pods : List Pod) (policy : Policy),
      policy.maxPods = 0 → 1 ≤ activeCount pods →
      usedCPU pods ≤ policy.maxCPU → usedMem pods ≤ policy.maxMemory →
      (computeUsage pods policy).violation = true ∧
      (computeUsage pods policy).reason = "pods") := by
  constructor
  · intro newPod pods spec h0 hrej
    have hA : ¬(spec.maxPods > 0 ∧ activeCount pods + 1 > spec.maxPods) := by
      rw [h0]; intro h; omega
    by_cases hB : mustParse spec.maxCPU > 0 ∧
        usedCPU pods + podCPU newPod > mustParse spec.maxCPU
    · simp only [evaluatePodAgainstPolicy, if_neg hA, if_pos hB]
      exact evalMsg_cpu_ne_pods _
    · by_cases hC : mustParse spec.maxMemory > 0 ∧
          usedMem pods + podMem newPod > mustParse spec.maxMemory
      · simp only [evaluatePodAgainstPolicy, if_neg hA, if_neg hB, if_pos hC]
        exact evalMsg_mem_ne_pods _
      · simp only [evaluatePodAgainstPolicy, if_neg hA, if_neg hB, if_neg hC] at hrej
        exact absurd hrej (by simp)
  · intro pods policy h0 hcount hcpu hmem
    have hp : activeCount pods > policy.maxPods := by rw [h0]; omega
    have hc : ¬(usedCPU pods > policy.maxCPU) := not_lt.mpr hcpu
    have hm : ¬(usedMem pods > policy.maxMemory) := not_lt.mpr hmem
    constructor
    · simp [computeUsage, hp, hc, hm]
    · simp [computeUsage, EnforcementResult.reason, hp, hc, hm, reasonOfMessage_podsMsg]

/-- C2 (amended) at concrete inputs: the rejection of an 800m-cpu pod under a
maxPods-0 policy is not a pod-count rejection, and computeUsage on one
running pod under a maxPods-0 policy reports a pod-count violation. -/
theorem maxPods_zero_unlimited_only_in_admission_witness :
    (evaluatePodAgainstPolicy c2wPod (Except.ok []) c2wSpec).reason.toList.take 7 ≠
      "maxPods".toList ∧
    ((computeUsage [c2Pod] c2Policy).violation = true ∧
      (computeUsage [c2Pod] c2Policy).reason = "pods") :=
  ⟨maxPods_zero_unlimited_only_in_admission.1 c2wPod [] c2wSpec (by decide) (by decide),
   maxPods_zero_unlimited_only_in_admission.2 [c2Pod] c2Policy (by decide) (by decide)
     (by decide) (by decide)⟩

/-- C6: on any error from the live pod listing, evaluatePodAgainstPolicy
returns allowed together with the error, and the handler turns that into an
allowed admission response (fail-open). -/
theorem evaluatePod_fail_open (newPod : Pod) (spec : QuotaPolicySpec) (e : String) :
    evaluatePodAgainstPolicy newPod (Except.error e) spec =
      { allowed := true, reason := "", err := some e } ∧
    admissionAllowed (evaluatePodAgainstPolicy newPod (Except.error e) spec) = true := by
  constructor <;> rfl

/-- C3: the admission decision is computed over projected totals that count
the candidate pod as already admitted, and the checks apply in order - pod
count (only when maxPods is greater than 0), then cpu (only when maxCPU is
greater than 0), then memory (only when maxMemory is greater than 0) - with
a pod-count, cpu, memory reason respectively, else the request is accepted. -/
theorem evaluatePod_check_order (newPod : Pod) (pods : List Pod) (spec : QuotaPolicySpec) :
    ((spec.maxPods > 0 ∧ activeCount pods + 1 > spec.maxPods) →
      (evaluatePodAgainstPolicy newPod (Except.ok pods) spec).allowed = false ∧
      (evaluatePodAgainstPolicy newPod (Except.ok pods) spec).reason.toList.take 7 =
        "maxPods".toList) ∧
    (¬(spec.maxPods > 0 ∧ activeCount pods + 1 > spec.maxPods) →
      (mustParse spec.maxCPU > 0 ∧ usedCPU pods + podCPU newPod > mustParse spec.maxCPU) →
      (evaluatePodAgainstPolicy newPod (Except.ok pods) spec).allowed = false ∧
      (evaluatePodAgainstPolicy newPod (Except.ok pods) spec).reason.toList.take 3 =
        "cpu".toList) ∧
    (¬(spec.maxPods > 0 ∧ activeCount pods + 1 > spec.maxPods) →
      ¬(mustParse spec.maxCPU > 0 ∧ usedCPU pods + podCPU newPod > mustParse spec.maxCPU) →
      (mustParse spec.maxMemory > 0 ∧ usedMem pods + podMem newPod > mustParse spec.maxMemory) →
      (evaluatePodAgainstPolicy newPod (Except.ok pods) spec).allowed = false ∧
      (evaluatePodAgainstPolicy newPod (Except.ok pods) spec).reason.toList.take 6 =
        "memory".toList) ∧
    (¬(spec.maxPods > 0 ∧ activeCount pods + 1 > spec.maxPods) →
      ¬(mustParse spec.maxCPU > 0 ∧ usedCPU pods + podCPU newPod > mustParse spec.maxCPU) →
      ¬(mustParse spec.maxMemory > 0 ∧ usedMem pods + podMem newPod > mustParse spec.maxMemory) →
      evaluatePodAgainstPolicy newPod (Except.ok pods) spec =
        { allowed := true, reason := "", err := none }) := by
  refine ⟨?_, ?_, ?_, ?_⟩
  · intro hA
    simp only [evaluatePodAgainstPolicy, if_pos hA]
    exact ⟨trivial, evalMsg_pods_take _⟩
  · intro hA hB
    simp only [evaluatePodAgainstPolicy, if_neg hA, if_pos hB]
    exact ⟨trivial, evalMsg_cpu_take _⟩
  · intro hA hB hC
    simp only [evaluatePodAgainstPolicy, if_neg hA, if_neg hB, if_pos hC]
    exact ⟨trivial, evalMsg_mem_take _⟩
  · intro hA hB hC
    simp only [evaluatePodAgainstPolicy, if_neg hA, if_neg hB, if_neg hC]

/-- Three existing live pods. -/
def c3Pods : List Pod :=
  [mkPod "a" PodPhase.running 1 none none, mkPod "b" PodPhase.running 2 none none,
   mkPod "c" PodPhase.running 3 none none]

/-- Policy with maxPods 3. -/
def c3Spec : QuotaPolicySpec := { maxPods := 3, maxCPU := "2", maxMemory := "2Gi" }

/-- The candidate fourth pod. -/
def c3New : Pod := mkPod "d" PodPhase.running 4 none none

/-- C3 at the spec's concrete instance: with maxPods 3 and 3 existing live
pods, the request for a 4th pod is rejected with a pod-count reason. -/
theorem evaluatePod_check_order_witness :
    (c3Spec.maxPods > 0 ∧ activeCount c3Pods + 1 > c3Spec.maxPods) ∧
    ((evaluatePodAgainstPolicy c3New (Except.ok c3Pods) c3Spec).allowed = false ∧
      (evaluatePodAgainstPolicy c3New (Except.ok c3Pods) c3Spec).reason.toList.take 7 =
        "maxPods".toList) :=
  ⟨by decide, (evaluatePod_check_order c3New c3Pods c3Spec).1 (by decide)⟩

/-- C4: on a non-empty pod list with pairwise distinct creation timestamps,
selectPodToDelete returns the pod with the oldest creation timestamp when the
reason is a pod-count violation, and the pod with the newest creation
timestamp for any other reason. -/
theorem selectPodToDelete_oldest_newest (pods : List Pod) (reason : String)
    (hne : pods ≠ [])
    (_hdist : pods.Pairwise fun p q => p.creationTimestamp ≠ q.creationTimestamp) :
    ∃ p, selectPodToDelete pods reason = some p ∧ p ∈ pods ∧
      ((reason = "pods" → ∀ q ∈ pods, p.creationTimestamp ≤ q.creationTimestamp) ∧
       (reason ≠ "pods" → ∀ q ∈ pods, q.creationTimestamp ≤ p.creationTimestamp)) := by
  match pods, hne with
  | p :: rest, _ =>
    by_cases hr : reason = "pods"
    · refine ⟨rest.foldl
        (fun best q => if q.creationTimestamp < best.creationTimestamp then q else best) p,
        ?_, ?_, ?_, ?_⟩
      · simp [selectPodToDelete, hr]
      · exact foldl_old_mem p rest
      · intro _ q hq
        exact foldl_old_le p rest q hq
      · intro h
        exact absurd hr h
    · refine ⟨rest.foldl
        (fun best q => if q.creationTimestamp > best.creationTimestamp then q else best) p,
        ?_, ?_, ?_, ?_⟩
      · simp [selectPodToDelete, hr]
      · exact foldl_new_mem p rest
      · intro h
        exact absurd h hr
      · intro _ q hq
        exact foldl_new_ge p rest q hq

/-- Three running pods with distinct creation timestamps 5, 2, 9. -/
def c4Pods : List Pod :=
  [mkPod "x" PodPhase.running 5 none none, mkPod "y" PodPhase.running 2 none none,
   mkPod "z" PodPhase.running 9 none none]

/-- An older 500m pod and a newer 300m pod: requests sum to 800m. -/
def c4cPods : List Pod :=
  [mkPod "old" PodPhase.running 1 (some 500) none,
   mkPod "new" PodPhase.running 2 (some 300) none]

/-- maxCPU 500m with generous pod-count and memory limits. -/
def c4cPolicy : Policy := { maxPods := 10, maxCPU := 500, maxMemory := 1000000000 }

/-- C4 at concrete inputs: the victim is the oldest pod for a pod-count
reason and the newest otherwise, and on the spec's instance (maxCPU 500m,
requests summing to 800m) the enforcement loop deletes exactly the single
newest pod. -/
theorem selectPodToDelete_oldest_newest_witness :
    (c4Pods ≠ [] ∧ c4Pods.Pairwise fun p q => p.creationTimestamp ≠ q.creationTimestamp) ∧
    (∃ p, selectPodToDelete c4Pods "pods" = some p ∧ p ∈ c4Pods ∧
      (("pods" = "pods" → ∀ q ∈ c4Pods, p.creationTimestamp ≤ q.creationTimestamp) ∧
       ("pods" ≠ "pods" → ∀ q ∈ c4Pods, q.creationTimestamp ≤ p.creationTimestamp))) ∧
    (∃ p, selectPodToDelete c4Pods "cpu" = some p ∧ p ∈ c4Pods ∧
      (("cpu" = "pods" → ∀ q ∈ c4Pods, p.creationTimestamp ≤ q.creationTimestamp) ∧
       ("cpu" ≠ "pods" → ∀ q ∈ c4Pods, q.creationTimestamp ≤ p.creationTimestamp))) ∧
    (EnforceUntilOK c4cPods c4cPolicy).victims = ["new"] :=
  ⟨⟨by decide, by decide⟩,
   selectPodToDelete_oldest_newest c4Pods "pods" (by decide) (by decide),
   selectPodToDelete_oldest_newest c4Pods "cpu" (by decide) (by decide),
   by decide⟩

/-- C5: the enforcement loop executes at most 10 iterations, so one
invocation deletes at most 10 pods; it never returns an error in a run where
cluster reads and deletes succeed, and when the iteration cap is hit the
returned result is the recomputed usage of the final state. -/
theorem EnforceUntilOK_bounded (pods : List Pod) (policy : Policy) :
    (EnforceUntilOK pods policy).victims.length ≤ 10 ∧
    (EnforceUntilOK pods policy).err = none ∧
    ((EnforceUntilOK pods policy).victims.length = 10 →
      (EnforceUntilOK pods policy).result =
        computeUsage (EnforceUntilOK pods policy).finalPods policy) := by
  refine ⟨?_, enforceAux_err_none policy 10 pods [], ?_⟩
  · have h := enforceAux_victims_le policy 10 pods []
    simp only [List.length_nil, Nat.zero_add] at h
    exact h
  · intro h
    exact enforceAux_cap policy 10 pods [] h

/-- Eleven running pods with distinct creation timestamps. -/
def c5Pods : List Pod :=
  [mkPod "p0" PodPhase.running 0 none none, mkPod "p1" PodPhase.running 1 none none,
   mkPod "p2" PodPhase.running 2 none none, mkPod "p3" PodPhase.running 3 none none,
   mkPod "p4" PodPhase.running 4 none none, mkPod "p5" PodPhase.running 5 none none,
   mkPod "p6" PodPhase.running 6 none none, mkPod "p7" PodPhase.running 7 none none,
   mkPod "p8" PodPhase.running 8 none none, mkPod "p9" PodPhase.running 9 none none,
   mkPod "p10" PodPhase.running 10 none none]

/-- A policy that can never be satisfied (negative pod budget), forcing the
loop to its iteration cap. -/
def c5Policy : Policy := { maxPods := -1, maxCPU := 1000000, maxMemory := 1000000 }

/-- C5 at a concrete cap-hitting input: with 11 pods and an unsatisfiable
policy, exactly 10 deletions happen, the error is nil, and the returned
result is the recomputed final usage. -/
theorem EnforceUntilOK_bounded_witness :
    (EnforceUntilOK c5Pods c5Policy).victims.length = 10 ∧
    (EnforceUntilOK c5Pods c5Policy).err = none ∧
    (EnforceUntilOK c5Pods c5Policy).result =
      computeUsage (EnforceUntilOK c5Pods c5Policy).finalPods c5Policy :=
  ⟨by decide, (EnforceUntilOK_bounded c5Pods c5Policy).2.1,
   (EnforceUntilOK_bounded c5Pods c5Policy).2.2 (by decide)⟩

/-- C7: when usage is violated but no eviction victim exists, EnforceUntilOK
stops in the first iteration, returns the usage with the explanatory message
and a nil error, having deleted nothing. -/
theorem EnforceUntilOK_no_victim_terminal (pods : List Pod) (policy : Policy)
    (hv : (computeUsage pods policy).violation = true)
    (hs : selectPodToDelete pods (computeUsage pods policy).reason = none) :
    EnforceUntilOK pods policy =
      { result := { computeUsage pods policy with
          message := "violation but no suitable pod to delete" }
        err := none
        victims := []
        finalPods := pods } := by
  have hv2 : ¬((computeUsage pods policy).violation = false) := by rw [hv]; simp
  show enforceAux policy 10 pods [] = _
  rw [show (10 : Nat) = 9 + 1 from rfl]
  simp only [enforceAux, if_neg hv2, hs]

/-- A policy violated even by an empty namespace. -/
def c7Policy : Policy := { maxPods := -1, maxCPU := 1000000, maxMemory := 1000000 }

/-- C7 at a concrete input: an empty namespace under a negative pod budget is
violated with no pod to delete; the loop stops with the message and no error. -/
theorem EnforceUntilOK_no_victim_terminal_witness :
    ((computeUsage [] c7Policy).violation = true ∧
      selectPodToDelete [] (computeUsage [] c7Policy).reason = none) ∧
    EnforceUntilOK [] c7Policy =
      { result := { computeUsage [] c7Policy with
          message := "violation but no suitable pod to delete" }
        err := none
        victims := []
        finalPods := [] } :=
  ⟨⟨by decide, by decide⟩, EnforceUntilOK_no_victim_terminal [] c7Policy (by decide) (by decide)⟩

/-- C8: on a compliant namespace EnforceUntilOK returns the computed usage
with no deletions and leaves the state unchanged, so a second run over the
resulting state returns the identical outcome, again with zero deletions. -/
theorem EnforceUntilOK_idempotent_on_compliant (pods : List Pod) (policy : Policy)
    (h : (computeUsage pods policy).violation = false) :
    EnforceUntilOK pods policy =
      { result := computeUsage pods policy, err := none, victims := [], finalPods := pods } ∧
    EnforceUntilOK (EnforceUntilOK pods policy).finalPods policy =
      EnforceUntilOK pods policy := by
  have h1 : EnforceUntilOK pods policy =
      { result := computeUsage pods policy, err := none, victims := [], finalPods := pods } := by
    show enforceAux policy 10 pods [] = _
    rw [show (10 : Nat) = 9 + 1 from rfl]
    simp only [enforceAux, if_pos h]
  refine ⟨h1, ?_⟩
  rw [h1]
  exact h1

/-- One running pod well inside the limits. -/
def c8Pods : List Pod := [mkPod "a" PodPhase.running 1 (some 100) (some 100)]

/-- Generous limits: the state above is compliant. -/
def c8Policy : Policy := { maxPods := 10, maxCPU := 2000, maxMemory := 2147483648000 }

/-- C8 at a concrete compliant input. -/
theorem EnforceUntilOK_idempotent_on_compliant_witness :
    (computeUsage c8Pods c8Policy).violation = false ∧
    (EnforceUntilOK c8Pods c8Policy =
      { result := computeUsage c8Pods c8Policy, err := none, victims := [],
        finalPods := c8Pods } ∧
     EnforceUntilOK (EnforceUntilOK c8Pods c8Policy).finalPods c8Policy =
       EnforceUntilOK c8Pods c8Policy) :=
  ⟨by decide, EnforceUntilOK_idempotent_on_compliant c8Pods c8Policy (by decide)⟩

/-- The running pod holding 800m cpu, older. -/
def c9PodA : Pod := mkPod "a" PodPhase.running 1 (some 800) none

/-- A Succeeded pod, newest by creation timestamp. -/
def c9PodB : Pod := mkPod "b" PodPhase.succeeded 2 none none

/-- maxCPU 500m, other limits generous. -/
def c9Policy : Policy := { maxPods := 10, maxCPU := 500, maxMemory := 1000000000 }

/-- C9: victim selection runs on the unfiltered pod list: under a cpu
violation caused solely by the running pod, the Succeeded pod is selected
first (it is the newest), even though it is excluded from the usage
computation and deleting it leaves the reported usage unchanged. -/
theorem EnforceUntilOK_terminal_phase_victim :
    c9PodB.phase = PodPhase.succeeded ∧
    selectPodToDelete [c9PodA, c9PodB]
      (computeUsage [c9PodA, c9PodB] c9Policy).reason = some c9PodB ∧
    (EnforceUntilOK [c9PodA, c9PodB] c9Policy).victims.head? = some "b" ∧
    computeUsage (deletePodByName [c9PodA, c9PodB] c9PodB.name) c9Policy =
      computeUsage [c9PodA, c9PodB] c9Policy := by
  decide

/-- mustParse of the default cpu limit "2" (2 cores). -/
lemma mustParse_two : mustParse "2" = 2000 := by decide

/-- mustParse of the default memory limit "2Gi". -/
lemma mustParse_twoGi : mustParse "2Gi" = 2147483648000 := by decide

/-- C10: ParsePolicy substitutes per-field defaults for absent or ill-typed
fields: maxPods missing or not an int64 yields 10; maxCPU missing, not a
string, or unparsable yields 2 cores; maxMemory likewise yields 2Gi. -/
theorem ParsePolicy_defaults (spec : List (String × GoVal)) :
    ((∀ i, lookupSpec spec "maxPods" ≠ some (GoVal.vint i)) →
      (ParsePolicy spec).maxPods = 10) ∧
    ((∀ s, lookupSpec spec "maxCPU" = some (GoVal.vstr s) → parseQuantity s = none) →
      (ParsePolicy spec).maxCPU = 2000) ∧
    ((∀ s, lookupSpec spec "maxMemory" = some (GoVal.vstr s) → parseQuantity s = none) →
      (ParsePolicy spec).maxMemory = 2147483648000) := by
  refine ⟨?_, ?_, ?_⟩
  · intro h
    cases hp : lookupSpec spec "maxPods" with
    | none => simp [ParsePolicy, hp]
    | some v =>
      cases v with
      | vint i => exact absurd hp (h i)
      | vstr s => simp [ParsePolicy, hp]
      | vother => simp [ParsePolicy, hp]
  · intro h
    cases hc : lookupSpec spec "maxCPU" with
    | none => simp [ParsePolicy, hc, mustParse_two]
    | some v =>
      cases v with
      | vint i => simp [ParsePolicy, hc, mustParse_two]
      | vstr s =>
        have hq : parseQuantity s = none := h s hc
        simp [ParsePolicy, hc, hq, mustParse_two]
      | vother => simp [ParsePolicy, hc, mustParse_two]
  · intro h
    cases hm : lookupSpec spec "maxMemory" with
    | none => simp [ParsePolicy, hm, mustParse_twoGi]
    | some v =>
      cases v with
      | vint i => simp [ParsePolicy, hm, mustParse_twoGi]
      | vstr s =>
        have hq : parseQuantity s = none := h s hm
        simp [ParsePolicy, hm, hq, mustParse_twoGi]
      | vother => simp [ParsePolicy, hm, mustParse_twoGi]

/-- A spec map typing maxPods as a string, binding maxCPU to an unparsable
string, and leaving maxMemory absent. -/
def c10Spec : List (String × GoVal) :=
  [("maxPods", GoVal.vstr "7"), ("maxCPU", GoVal.vstr "abc")]

/-- C10 at a concrete input: every field of the parsed policy falls back to
its default. -/
theorem ParsePolicy_defaults_witness :
    (ParsePolicy c10Spec).maxPods = 10 ∧
    (ParsePolicy c10Spec).maxCPU = 2000 ∧
    (ParsePolicy c10Spec).maxMemory = 2147483648000 :=
  ⟨(ParsePolicy_defaults c10Spec).1 (by intro i h; simp [c10Spec, lookupSpec] at h),
   (ParsePolicy_defaults c10Spec).2.1 (by
      intro s hs
      simp [c10Spec, lookupSpec] at hs
      rw [← hs]
      decide),
   (ParsePolicy_defaults c10Spec).2.2 (by intro s hs; simp [c10Spec, lookupSpec] at hs)⟩

end RQE
